import Mathlib

/-!
Verification development for the Cars EDA dashboard (`app.py`).

The script is a single Streamlit page-dispatch over three views backed by two
pandas DataFrames.  We give a shallow embedding of the data model and of every
operation the claims touch:

* a `DataFrame` is a list of named, dtype-tagged columns holding `Value`s
  (rationals model the numeric cells, strings the object cells);
* the Analysis-page filter `clean[clean["Company_Name"].isin(company) &
  clean["Year"].between(y0, y1)]` is a boolean-mask row selection;
* `select_dtypes(include=np.number)` / `select_dtypes(include="object")`
  become dtype filters;
* pandas `Series.mean` (NaN on an empty series) is modelled with `Option`,
  `none` standing for NaN;
* `Series.mode` returns the tied maximizers sorted ascending;
* `Series.idxmax` returns the first index attaining the maximum;
* `Series.sort_values(ascending=False)` is the reversal of a stable ascending
  sort (pandas `nargsort` reverses the ascending argsort, and the numpy sort
  is stable on the small arrays involved);
* a bare `df["col"]` subscript on a missing column raises `KeyError`; page
  rendering is therefore modelled in `Except String`, where `.error` is an
  uncaught exception that aborts the rest of the page and `.ok` carries the
  rendered outputs (including any warning/info messages the code itself
  emits, such as the grouped-bar `st.warning` and the map `st.info`).
-/

/-- The dtype classes relevant to `select_dtypes`: `numeric` covers the
`np.number` kinds, `object` the text columns, and `boolean` / `datetime`
the kinds matched by neither `include=np.number` nor `include="object"`. -/
inductive Dtype where
  | numeric
  | object
  | boolean
  | datetime
  deriving DecidableEq

/-- A cell value: numeric cells as rationals, object cells as strings. -/
inductive Value where
  | num (q : ℚ)
  | str (s : String)
  deriving DecidableEq

/-- A named pandas column: name, dtype tag and the list of cell values in
table (row) order. -/
structure Col where
  name : String
  dtype : Dtype
  values : List Value
  deriving DecidableEq

/-- A pandas DataFrame: its columns in column order. -/
structure DataFrame where
  cols : List Col
  deriving DecidableEq

/-- `df.columns` as a list of names. -/
def DataFrame.colNames (df : DataFrame) : List String :=
  df.cols.map (·.name)

/-- `len(df)`: the number of rows (the length of the first column; `0` for a
frame with no columns). -/
def DataFrame.nrows (df : DataFrame) : Nat :=
  match df.cols with
  | [] => 0
  | c :: _ => c.values.length

/-- Well-formedness: every column has exactly `nrows` cells. -/
def DataFrame.Wf (df : DataFrame) : Prop :=
  ∀ c ∈ df.cols, c.values.length = df.nrows

instance (df : DataFrame) : Decidable df.Wf := by
  unfold DataFrame.Wf; infer_instance

/-- `df["nm"]`: column lookup.  A missing column raises `KeyError` in pandas,
modelled as `Except.error`. -/
def DataFrame.getCol (df : DataFrame) (nm : String) : Except String Col :=
  match df.cols.find? (fun c => c.name == nm) with
  | some c => .ok c
  | none => .error ("KeyError: " ++ nm)

/-- `Series.isin(allowed)` at one cell: membership test. -/
def valueIsIn (allowed : List Value) (v : Value) : Bool :=
  decide (v ∈ allowed)

/-- `Series.between(lo, hi)` at one cell (inclusive on both ends, pandas
default).  Only numeric cells can satisfy the bound. -/
def valueBetween (lo hi : ℚ) : Value → Bool
  | .num q => decide (lo ≤ q) && decide (q ≤ hi)
  | .str _ => false

/-- Boolean-mask selection `col[mask]` on one column: keep the cells whose
mask bit is true, in order. -/
def Col.filterMask (c : Col) (mask : List Bool) : Col :=
  { c with values := ((c.values.zip mask).filter (·.2)).map Prod.fst }

/-- Boolean-mask row selection `df[mask]`: applied uniformly to every
column. -/
def DataFrame.filterMask (df : DataFrame) (mask : List Bool) : DataFrame :=
  ⟨df.cols.map (·.filterMask mask)⟩

/-- The Analysis-page Filter Engine (app.py lines 95-96):
`clean[clean["Company_Name"].isin(company) & clean["Year"].between(y0, y1)]`.
The two column subscripts can raise `KeyError`; otherwise the conjunction of
the two masks selects the rows. -/
def filterEngine (df : DataFrame) (allowed : List Value) (lo hi : ℚ) :
    Except String DataFrame := do
  let cc ← df.getCol "Company_Name"
  let yc ← df.getCol "Year"
  let mask := List.zipWith (fun a b => a && b)
    (cc.values.map (valueIsIn allowed))
    (yc.values.map (valueBetween lo hi))
  return df.filterMask mask

/-- Row-level specification of the filter: from a column `vs`, keep exactly
the cells at row positions whose company cell is in `allowed` and whose year
cell lies in `[lo, hi]`. -/
def selectRows (allowed : List Value) (lo hi : ℚ) (cs ys vs : List Value) :
    List Value :=
  ((vs.zip (cs.zip ys)).filter
    (fun p => valueIsIn allowed p.2.1 && valueBetween lo hi p.2.2)).map Prod.fst

/-- Extract the rational contents of a numeric column. -/
def numsOf (vs : List Value) : List ℚ :=
  vs.filterMap (fun v => match v with | .num q => some q | .str _ => none)

/-- Extract the string contents of an object column. -/
def stringsOf (vs : List Value) : List String :=
  vs.filterMap (fun v => match v with | .num _ => none | .str s => some s)

/-- Is the cell numeric? -/
def Value.isNum : Value → Bool
  | .num _ => true
  | .str _ => false

/-- `Series.min()` over the numeric contents (`none` on an empty series,
where pandas yields NaN). -/
def seriesMin : List ℚ → Option ℚ
  | [] => none
  | q :: rest => some (rest.foldl min q)

/-- `Series.max()` over the numeric contents (`none` on an empty series). -/
def seriesMax : List ℚ → Option ℚ
  | [] => none
  | q :: rest => some (rest.foldl max q)

/-- The Column Classifier, numeric side (app.py line 99):
`df.select_dtypes(include=np.number).columns.tolist()`.  Only columns whose
dtype is a `np.number` subtype are kept (bool and datetime are not). -/
def numColsOf (df : DataFrame) : List String :=
  (df.cols.filter (fun c => decide (c.dtype = Dtype.numeric))).map (·.name)

/-- The Column Classifier, categorical side (app.py line 100):
`df.select_dtypes(include="object").columns.tolist()`.  Only object (text)
columns are kept (bool and datetime are not). -/
def catColsOf (df : DataFrame) : List String :=
  (df.cols.filter (fun c => decide (c.dtype = Dtype.object))).map (·.name)

/-- The univariate "View Type" radio toggle (app.py line 120). -/
inductive ViewType where
  | histogram
  | kde
  | boxplot
  deriving DecidableEq

/-- Univariate chart descriptors (app.py lines 116-129). -/
inductive UniChart where
  | countplot (c : String)
  | histKde (c : String)
  | kdePlot (c : String)
  | boxplotSingle (c : String)
  deriving DecidableEq

/-- The numeric-branch univariate chart for a given toggle position
(the `else` arm of app.py lines 119-129). -/
def numericUniChart (d : ViewType) (c : String) : UniChart :=
  match d with
  | .histogram => .histKde c
  | .kde => .kdePlot c
  | .boxplot => .boxplotSingle c

/-- The univariate branch (app.py lines 116-129): countplot when the chosen
column is in `cat_cols`, otherwise the toggle-selected numeric chart. -/
def univariateBranch (catCs : List String) (c : String) (d : ViewType) :
    UniChart :=
  if c ∈ catCs then .countplot c
  else numericUniChart d c

/-- Bivariate chart descriptors (app.py lines 143-154).  `boxplot xAxis
yAxis` records the seaborn axes: `xAxis` carries the grouping (categorical)
column and `yAxis` the numeric one. -/
inductive BivariateChart where
  | scatter (x y : String)
  | boxplot (xAxis yAxis : String)
  | countplotHue (x hue : String)
  deriving DecidableEq

/-- Output of the bivariate branch: the chart plus, in the scatter case, the
pair of columns whose Pearson correlation `df[x].corr(df[y])` is written
next to the chart (the floating-point value itself is a library computation;
we record which pair is surfaced). -/
structure BivariateOut where
  chart : BivariateChart
  corrOf : Option (String × String)
  deriving DecidableEq

/-- The bivariate branch (app.py lines 143-154): membership of the two
chosen columns in `num_cols` / `cat_cols` picks one of four charts; the
scatter case additionally surfaces the correlation. -/
def bivariateBranch (numCs catCs : List String) (x y : String) :
    BivariateOut :=
  if x ∈ numCs ∧ y ∈ numCs then ⟨.scatter x y, some (x, y)⟩
  else if x ∈ numCs ∧ y ∈ catCs then ⟨.boxplot y x, none⟩
  else if x ∈ catCs ∧ y ∈ numCs then ⟨.boxplot x y, none⟩
  else ⟨.countplotHue x y, none⟩

/-- Output of the multivariate Grouped Bar branch (app.py lines 174-190):
either a fully parameterized bar chart or the `st.warning` message. -/
inductive GroupedBarOut where
  | chart (x y : String) (hue : Option String)
  | warning (msg : String)
  deriving DecidableEq

/-- The Grouped Bar branch (app.py lines 174-190): requires both
`Fuel_Type` and `Price` to be present; the hue is `Transmission` when that
column exists.  When a required column is missing the branch emits a
warning and no chart. -/
def groupedBarBranch (df : DataFrame) : GroupedBarOut :=
  if "Fuel_Type" ∈ df.colNames ∧ "Price" ∈ df.colNames then
    .chart "Fuel_Type" "Price"
      (if "Transmission" ∈ df.colNames then some "Transmission" else none)
  else .warning "Required columns missing"

/-- `Series.mean()` over the numeric contents: pandas yields NaN on an empty
series, modelled as `none`. -/
def seriesMean (qs : List ℚ) : Option ℚ :=
  if qs.length = 0 then none else some (qs.sum / qs.length)

/-- Python `round(x, 2)` idealized over the rationals (Python rounds
half-to-even on floats; the claims never depend on the rounding value, and
`round` maps the NaN of an empty mean through unchanged, which `Option.map`
captures at the call sites). -/
def round2 (q : ℚ) : ℚ :=
  (round (q * 100) : ℤ) / 100

/-- The three Analysis-page metrics (app.py lines 103-107): selected row
count, `round(df["Price"].mean(), 2)` and `round(df["Power_value"].mean(),
2)`.  The column subscripts raise `KeyError` when missing; the means of an
empty subset are NaN (`none`). -/
def analysisMetrics (df : DataFrame) :
    Except String (Nat × Option ℚ × Option ℚ) := do
  let pc ← df.getCol "Price"
  let wc ← df.getCol "Power_value"
  return (df.nrows,
    (seriesMean (numsOf pc.values)).map round2,
    (seriesMean (numsOf wc.values)).map round2)

/-- Python `int(x)` (truncation toward zero) on a rational. -/
def intTrunc (q : ℚ) : ℤ :=
  q.num.tdiv q.den

/-- The four Introduction-page metrics (app.py lines 54-59): row count,
`round(clean["Price"].mean(), 2)`, `int(clean["Kilometers_Driven"].mean())`
and `clean["Company_Name"].nunique()`.  Any missing column raises an
uncaught `KeyError`, aborting the page render. -/
def introductionMetrics (df : DataFrame) :
    Except String (Nat × Option ℚ × Option ℤ × Nat) := do
  let pc ← df.getCol "Price"
  let kc ← df.getCol "Kilometers_Driven"
  let cc ← df.getCol "Company_Name"
  return (df.nrows,
    (seriesMean (numsOf pc.values)).map round2,
    (seriesMean (numsOf kc.values)).map intTrunc,
    cc.values.dedup.length)

/-- `Series.idxmax()`: the index of the first cell attaining the maximum
(pandas documents first occurrence on ties); `none` on an empty series
(pandas raises there). -/
def idxmax : List ℚ → Option Nat
  | [] => none
  | v :: rest =>
    match idxmax rest with
    | none => some 0
    | some j => if rest.getD j 0 ≤ v then some 0 else some (j + 1)

/-- App.py lines 222-223: `clean.loc[clean["Price"].idxmax(),
"Company_Name"]` — the company cell of the first row attaining the maximal
price. -/
def highestPriceCompany (df : DataFrame) : Except String Value := do
  let pc ← df.getCol "Price"
  let cc ← df.getCol "Company_Name"
  match idxmax (numsOf pc.values) with
  | none => .error "ValueError: attempt to get argmax of an empty sequence"
  | some i =>
    match cc.values.get? i with
    | some v => .ok v
    | none => .error "KeyError: label not found"

/-- The maximal occurrence count over the distinct values of a series. -/
def maxCount (vs : List String) : Nat :=
  (vs.dedup.map (fun v => vs.count v)).foldr max 0

/-- Lexicographic less-or-equal on character lists by code point — the
comparison Python uses on strings. -/
def lexLeChars : List Char → List Char → Bool
  | [], _ => true
  | _ :: _, [] => false
  | a :: as, b :: bs =>
    if a.toNat < b.toNat then true
    else if b.toNat < a.toNat then false
    else lexLeChars as bs

/-- Python string comparison `a <= b` (code-point lexicographic). -/
def pyStrLe (a b : String) : Bool :=
  lexLeChars a.data b.data

/-- `Series.mode()[0]` (app.py line 226): pandas collects every value whose
occurrence count is maximal and returns them sorted ascending; `[0]` picks
the smallest.  `none` on an empty series (pandas raises on the `[0]`). -/
def seriesMode (vs : List String) : Option String :=
  (List.insertionSort (fun a b => pyStrLe a b = true)
    (vs.dedup.filter (fun v => decide (vs.count v = maxCount vs)))).head?

/-- Modelled from the spec: "most frequent value in a named column (ties
broken by first occurrence among tied values)" — the first value in table
order whose occurrence count is maximal.  Stated only to compare with the
behaviour of `seriesMode` above. -/
def specModeFirstOcc (vs : List String) : Option String :=
  vs.find? (fun v => decide (vs.count v = maxCount vs))

/-- `Series.sort_values(ascending=False)` on a name-value series: pandas
`nargsort` computes a stable ascending argsort and reverses it, so ties come
out in reversed original order. -/
def sortValuesDescending (series : List (String × ℚ)) : List (String × ℚ) :=
  (List.insertionSort (fun a b => a.2 ≤ b.2) series).reverse

/-- App.py lines 228-230 applied to the Price column of the correlation
matrix: `corr()["Price"].sort_values(ascending=False).index[1]`.  The input
is the list of (column name, correlation-with-Price) pairs in numeric-column
order; the result is the name at position 1 of the descending sort (`none`
when fewer than two entries, where pandas raises an index error). -/
def strongestWithPrice (series : List (String × ℚ)) : Option String :=
  ((sortValuesDescending series).get? 1).map (·.1)

/-- The Conclusion-page metric lines 220-226: record count, highest-price
company and most common fuel.  (The strongest-correlation line 228-230 is
modelled at series level by `strongestWithPrice`, since the Pearson matrix
itself is a floating-point library computation.)  Any missing column raises
an uncaught `KeyError`, aborting the page render. -/
def conclusionMetrics (df : DataFrame) :
    Except String (Nat × Value × String) := do
  let highest ← highestPriceCompany df
  let fc ← df.getCol "Fuel_Type"
  match seriesMode (stringsOf fc.values) with
  | some m => return (df.nrows, highest, m)
  | none => .error "IndexError: index 0 is out of bounds"

/-- A small concrete cleaned table with the schema the app reads. -/
def cleanDF : DataFrame := ⟨[
  ⟨"Company_Name", .object, [.str "Maruti", .str "Hyundai", .str "Maruti"]⟩,
  ⟨"Year", .numeric, [.num 2017, .num 2019, .num 2015]⟩,
  ⟨"Price", .numeric, [.num 5, .num 7, .num 3]⟩,
  ⟨"Kilometers_Driven", .numeric, [.num 30000, .num 20000, .num 45000]⟩,
  ⟨"Power_value", .numeric, [.num 82, .num 118, .num 67]⟩,
  ⟨"Fuel_Type", .object, [.str "Petrol", .str "Diesel", .str "Petrol"]⟩,
  ⟨"Transmission", .object, [.str "Manual", .str "Manual", .str "Manual"]⟩]⟩

/-- A table lacking the `Price` column. -/
def dfNoPrice : DataFrame := ⟨[
  ⟨"Company_Name", .object, [.str "Maruti"]⟩,
  ⟨"Year", .numeric, [.num 2019]⟩]⟩

/-- A table with a boolean column alongside a numeric and a text one. -/
def dfWithBool : DataFrame := ⟨[
  ⟨"Year", .numeric, [.num 2019]⟩,
  ⟨"Sold", .boolean, [.str "True"]⟩,
  ⟨"Company_Name", .object, [.str "Maruti"]⟩]⟩


/-! ## Helper lemmas -/

theorem zipWith_mask_filter {α β γ : Type} (f : β → Bool) (g : γ → Bool) :
    ∀ (vs : List α) (cs : List β) (ys : List γ),
    ((vs.zip (List.zipWith (fun a b => a && b) (cs.map f) (ys.map g))).filter
        (·.2)).map Prod.fst
    = ((vs.zip (cs.zip ys)).filter (fun p => f p.2.1 && g p.2.2)).map Prod.fst
  | [], _, _ => by simp
  | _ :: _, [], _ => by simp
  | _ :: _, _ :: _, [] => by simp
  | v :: vs, c :: cs, y :: ys => by
    have IH := zipWith_mask_filter f g vs cs ys
    simp only [List.map_cons, List.zipWith_cons_cons, List.zip_cons_cons,
      List.filter_cons]
    cases h : f c && g y
    · simp only [h, Bool.false_eq_true, if_false]
      exact IH
    · simp only [h, if_true, List.map_cons]
      exact congrArg (List.cons v) IH

theorem filterMaskCol_eq_selectRows (c : Col) (allowed : List Value)
    (lo hi : ℚ) (cs ys : List Value) :
    c.filterMask (List.zipWith (fun a b => a && b)
        (cs.map (valueIsIn allowed)) (ys.map (valueBetween lo hi)))
    = ⟨c.name, c.dtype, selectRows allowed lo hi cs ys c.values⟩ := by
  simp only [Col.filterMask, selectRows,
    zipWith_mask_filter (valueIsIn allowed) (valueBetween lo hi)]

theorem getCol_ok {df : DataFrame} {nm : String} {c : Col}
    (h : df.getCol nm = .ok c) : c ∈ df.cols ∧ c.name = nm := by
  unfold DataFrame.getCol at h
  cases hf : df.cols.find? (fun x => x.name == nm) with
  | none => simp [hf] at h
  | some c2 =>
    rw [hf] at h
    cases h
    refine ⟨List.mem_of_find?_eq_some hf, ?_⟩
    have := List.find?_some hf
    simpa using this

theorem getCol_error {df : DataFrame} {nm : String}
    (h : nm ∉ df.colNames) : df.getCol nm = .error ("KeyError: " ++ nm) := by
  unfold DataFrame.getCol
  have hf : df.cols.find? (fun c => c.name == nm) = none := by
    rw [List.find?_eq_none]
    intro x hx hbeq
    apply h
    simp only [DataFrame.colNames, List.mem_map]
    exact ⟨x, hx, by simpa using hbeq⟩
  rw [hf]

theorem getCol_ok_of_mem {df : DataFrame} {nm : String}
    (h : nm ∈ df.colNames) :
    ∃ c, df.getCol nm = .ok c ∧ c ∈ df.cols ∧ c.name = nm := by
  unfold DataFrame.getCol
  cases hf : df.cols.find? (fun c => c.name == nm) with
  | some c =>
    exact ⟨c, rfl, List.mem_of_find?_eq_some hf,
      by simpa using List.find?_some hf⟩
  | none =>
    rw [List.find?_eq_none] at hf
    simp only [DataFrame.colNames, List.mem_map] at h
    obtain ⟨c, hc, hname⟩ := h
    exact absurd (by simp [hname]) (hf c hc)

theorem getCol_filterMask (df : DataFrame) (m : List Bool) (nm : String) :
    (df.filterMask m).getCol nm
      = (df.getCol nm).map (fun c => c.filterMask m) := by
  unfold DataFrame.getCol DataFrame.filterMask
  rw [List.find?_map]
  have hcomp : ((fun c : Col => c.name == nm) ∘ (fun c => c.filterMask m))
      = fun c : Col => c.name == nm := rfl
  rw [hcomp]
  cases df.cols.find? (fun c => c.name == nm) <;> rfl

theorem selectRows_empty_allowed (lo hi : ℚ) (cs ys vs : List Value) :
    selectRows [] lo hi cs ys vs = [] := by
  simp [selectRows, valueIsIn]

theorem valueBetween_of_gt {lo hi : ℚ} (h : hi < lo) (v : Value) :
    valueBetween lo hi v = false := by
  cases v with
  | num q =>
    simp only [valueBetween]
    rcases le_or_lt lo q with h1 | h1
    · have h2 : ¬ q ≤ hi := fun h2 => absurd (le_trans h1 h2) (not_le.mpr h)
      simp [h2]
    · simp [not_le.mpr h1]
  | str s => rfl

theorem selectRows_gt {lo hi : ℚ} (h : hi < lo) (allowed cs ys vs : List Value) :
    selectRows allowed lo hi cs ys vs = [] := by
  simp [selectRows, valueBetween_of_gt h]

theorem foldl_min_le_init : ∀ (l : List ℚ) (a : ℚ), l.foldl min a ≤ a
  | [], _ => le_refl _
  | x :: xs, a =>
    le_trans (foldl_min_le_init xs (min a x)) (min_le_left a x)

theorem foldl_min_le_mem : ∀ (l : List ℚ) (a q : ℚ), q ∈ l → l.foldl min a ≤ q
  | x :: xs, a, q, h => by
    cases h with
    | head => exact le_trans (foldl_min_le_init xs (min a x)) (min_le_right a x)
    | tail _ h2 => exact foldl_min_le_mem xs (min a x) q h2

theorem foldl_max_ge_init : ∀ (l : List ℚ) (a : ℚ), a ≤ l.foldl max a
  | [], _ => le_refl _
  | x :: xs, a =>
    le_trans (le_max_left a x) (foldl_max_ge_init xs (max a x))

theorem foldl_max_ge_mem : ∀ (l : List ℚ) (a q : ℚ), q ∈ l → q ≤ l.foldl max a
  | x :: xs, a, q, h => by
    cases h with
    | head => exact le_trans (le_max_right a x) (foldl_max_ge_init xs (max a x))
    | tail _ h2 => exact foldl_max_ge_mem xs (max a x) q h2

theorem seriesMin_le {l : List ℚ} {m q : ℚ}
    (h : seriesMin l = some m) (hq : q ∈ l) : m ≤ q := by
  cases l with
  | nil => cases h
  | cons x xs =>
    simp only [seriesMin, Option.some.injEq] at h
    subst h
    cases hq with
    | head => exact foldl_min_le_init xs q
    | tail _ h2 => exact foldl_min_le_mem xs x q h2

theorem seriesMax_ge {l : List ℚ} {m q : ℚ}
    (h : seriesMax l = some m) (hq : q ∈ l) : q ≤ m := by
  cases l with
  | nil => cases h
  | cons x xs =>
    simp only [seriesMax, Option.some.injEq] at h
    subst h
    cases hq with
    | head => exact foldl_max_ge_init xs q
    | tail _ h2 => exact foldl_max_ge_mem xs x q h2

theorem mem_numsOf {vs : List Value} {q : ℚ} (h : Value.num q ∈ vs) :
    q ∈ numsOf vs := by
  simp only [numsOf, List.mem_filterMap]
  exact ⟨.num q, h, rfl⟩

/-! ## Claim C1 -/

/-- Claim C1: the Filter Engine applied to a table holding the
`Company_Name` and `Year` columns returns (without raising) exactly the rows
whose company cell is in the allowed set and whose year lies in the
inclusive interval `[lo, hi]` — per column, the surviving cells are the
row-predicate selection `selectRows`; an empty allowed set gives an empty
result; an inverted bound (`hi < lo`) gives an empty result; and allowing
every company value present while taking `lo`/`hi` to be the minimum and
maximum of the `Year` column returns the whole table unchanged. -/
theorem filterEngine_spec (df : DataFrame) (cc yc : Col)
    (allowed : List Value) (lo hi : ℚ)
    (hwf : df.Wf)
    (hcc : df.getCol "Company_Name" = .ok cc)
    (hyc : df.getCol "Year" = .ok yc) :
    ∃ out, filterEngine df allowed lo hi = .ok out
      ∧ out.cols = df.cols.map
          (fun c => ⟨c.name, c.dtype,
            selectRows allowed lo hi cc.values yc.values c.values⟩)
      ∧ (allowed = [] → ∀ c ∈ out.cols, c.values = [])
      ∧ (hi < lo → ∀ c ∈ out.cols, c.values = [])
      ∧ ((∀ v ∈ cc.values, v ∈ allowed) →
         (∀ v ∈ yc.values, v.isNum = true) →
         seriesMin (numsOf yc.values) = some lo →
         seriesMax (numsOf yc.values) = some hi →
         out = df) := by
  obtain ⟨hccmem, hccname⟩ := getCol_ok hcc
  obtain ⟨hycmem, hycname⟩ := getCol_ok hyc
  refine ⟨df.filterMask (List.zipWith (fun a b => a && b)
    (cc.values.map (valueIsIn allowed))
    (yc.values.map (valueBetween lo hi))), ?_, ?_, ?_, ?_, ?_⟩
  · unfold filterEngine
    rw [hcc, hyc]
    rfl
  · simp only [DataFrame.filterMask]
    exact List.map_congr_left
      (fun c _ => filterMaskCol_eq_selectRows c allowed lo hi _ _)
  · intro he c hc
    subst he
    simp only [DataFrame.filterMask, List.mem_map] at hc
    obtain ⟨c0, _, rfl⟩ := hc
    rw [filterMaskCol_eq_selectRows]
    exact selectRows_empty_allowed lo hi _ _ _
  · intro hgt c hc
    simp only [DataFrame.filterMask, List.mem_map] at hc
    obtain ⟨c0, _, rfl⟩ := hc
    rw [filterMaskCol_eq_selectRows]
    exact selectRows_gt hgt allowed _ _ _
  · intro hall hnum hmin hmax
    have hcols : ∀ c ∈ df.cols, c.filterMask (List.zipWith (fun a b => a && b)
        (cc.values.map (valueIsIn allowed))
        (yc.values.map (valueBetween lo hi))) = c := by
      intro c hc
      rw [filterMaskCol_eq_selectRows]
      have hsel : selectRows allowed lo hi cc.values yc.values c.values
          = c.values := by
        unfold selectRows
        have hpred : ∀ p ∈ c.values.zip (cc.values.zip yc.values),
            (valueIsIn allowed p.2.1 && valueBetween lo hi p.2.2) = true := by
          intro p hp
          obtain ⟨v, cv, yv⟩ := p
          obtain ⟨hv, hcy⟩ := List.of_mem_zip hp
          obtain ⟨hcv, hyv⟩ := List.of_mem_zip hcy
          have h1 : valueIsIn allowed cv = true := by
            simpa [valueIsIn] using hall cv hcv
          have h2 : valueBetween lo hi yv = true := by
            have := hnum yv hyv
            cases yv with
            | num q =>
              have hq : q ∈ numsOf yc.values := mem_numsOf hyv
              simp [valueBetween, seriesMin_le hmin hq, seriesMax_ge hmax hq]
            | str s => simp [Value.isNum] at this
          simp [h1, h2]
        rw [List.filter_eq_self.mpr hpred]
        apply List.map_fst_zip
        have hlc : cc.values.length = df.nrows := hwf cc hccmem
        have hly : yc.values.length = df.nrows := hwf yc hycmem
        have hl : c.values.length = df.nrows := hwf c hc
        simp [List.length_zip, hlc, hly, hl]
      cases c with
      | mk nm dt vals => simpa using hsel
    cases df with
    | mk cols =>
      simp only [DataFrame.filterMask, DataFrame.mk.injEq]
      calc cols.map (Col.filterMask · (List.zipWith (fun a b => a && b)
            (cc.values.map (valueIsIn allowed))
            (yc.values.map (valueBetween lo hi))))
          = cols.map id := List.map_congr_left (fun c hc => hcols c hc)
        _ = cols := List.map_id cols

/-- Witness for C1 at a concrete table: the identity filter (every company
allowed, the year bounds at the column minimum and maximum) returns the
whole table. -/
theorem filterEngine_spec_witness :
    ∃ out, filterEngine cleanDF [.str "Maruti", .str "Hyundai"] 2015 2019
        = .ok out ∧ out = cleanDF := by
  obtain ⟨out, h1, -, -, -, h5⟩ := filterEngine_spec cleanDF
    ⟨"Company_Name", .object, [.str "Maruti", .str "Hyundai", .str "Maruti"]⟩
    ⟨"Year", .numeric, [.num 2017, .num 2019, .num 2015]⟩
    [.str "Maruti", .str "Hyundai"] 2015 2019
    (by decide) rfl rfl
  exact ⟨out, h1, h5 (by decide) (by decide) (by decide) (by decide)⟩

/-! ## Classifier membership lemmas -/

theorem mem_numColsOf {df : DataFrame} {n : String} :
    n ∈ numColsOf df
      ↔ ∃ c ∈ df.cols, c.name = n ∧ c.dtype = Dtype.numeric := by
  simp only [numColsOf, List.mem_map, List.mem_filter, decide_eq_true_eq]
  constructor
  · rintro ⟨c, ⟨hc, hd⟩, hn⟩
    exact ⟨c, hc, hn, hd⟩
  · rintro ⟨c, hc, hn, hd⟩
    exact ⟨c, ⟨hc, hd⟩, hn⟩

theorem mem_catColsOf {df : DataFrame} {n : String} :
    n ∈ catColsOf df
      ↔ ∃ c ∈ df.cols, c.name = n ∧ c.dtype = Dtype.object := by
  simp only [catColsOf, List.mem_map, List.mem_filter, decide_eq_true_eq]
  constructor
  · rintro ⟨c, ⟨hc, hd⟩, hn⟩
    exact ⟨c, hc, hn, hd⟩
  · rintro ⟨c, hc, hn, hd⟩
    exact ⟨c, ⟨hc, hd⟩, hn⟩

theorem name_mem_numColsOf {df : DataFrame} (hnd : df.colNames.Nodup)
    {c : Col} (hc : c ∈ df.cols) :
    c.name ∈ numColsOf df ↔ c.dtype = Dtype.numeric := by
  rw [mem_numColsOf]
  constructor
  · rintro ⟨c2, hc2, hn, hd⟩
    have h2 : c2 = c := List.inj_on_of_nodup_map hnd hc2 hc hn
    rwa [← h2]
  · intro hd
    exact ⟨c, hc, rfl, hd⟩

theorem name_mem_catColsOf {df : DataFrame} (hnd : df.colNames.Nodup)
    {c : Col} (hc : c ∈ df.cols) :
    c.name ∈ catColsOf df ↔ c.dtype = Dtype.object := by
  rw [mem_catColsOf]
  constructor
  · rintro ⟨c2, hc2, hn, hd⟩
    have h2 : c2 = c := List.inj_on_of_nodup_map hnd hc2 hc hn
    rwa [← h2]
  · intro hd
    exact ⟨c, hc, rfl, hd⟩

/-! ## Claim C2 -/

/-- Claim C2 counterexample: the classifier misses boolean-like columns.
On a table with a boolean column `Sold`, neither classifier list contains
`Sold`, so the union of the two lists is not the full column set — refuting
the claim that categorical includes boolean-like columns and that the union
always equals all columns. -/
theorem classifier_counterexample :
    numColsOf dfWithBool = ["Year"]
    ∧ catColsOf dfWithBool = ["Company_Name"]
    ∧ "Sold" ∈ dfWithBool.colNames
    ∧ "Sold" ∉ numColsOf dfWithBool
    ∧ "Sold" ∉ catColsOf dfWithBool := by decide

/-- Claim C2 (amended): for every table whose column names are distinct, the
two classifier lists are disjoint, order-preserving sublists of the column
list; their union consists of exactly the columns whose dtype is numeric or
object (text) — so it equals the full column set precisely when no
boolean-like or datetime column is present. -/
theorem classifier_amended (df : DataFrame) (hnd : df.colNames.Nodup) :
    (numColsOf df).Disjoint (catColsOf df)
    ∧ (numColsOf df).Sublist df.colNames
    ∧ (catColsOf df).Sublist df.colNames
    ∧ ∀ n, (n ∈ numColsOf df ∨ n ∈ catColsOf df)
        ↔ ∃ c ∈ df.cols, c.name = n
            ∧ (c.dtype = Dtype.numeric ∨ c.dtype = Dtype.object) := by
  refine ⟨?_, ?_, ?_, ?_⟩
  · intro n hn hcat
    obtain ⟨c1, hc1, hn1, hd1⟩ := mem_numColsOf.mp hn
    obtain ⟨c2, hc2, hn2, hd2⟩ := mem_catColsOf.mp hcat
    have h12 : c1 = c2 :=
      List.inj_on_of_nodup_map hnd hc1 hc2 (hn1.trans hn2.symm)
    rw [h12, hd2] at hd1
    cases hd1
  · exact (List.filter_sublist df.cols).map (·.name)
  · exact (List.filter_sublist df.cols).map (·.name)
  · intro n
    constructor
    · rintro (hn | hn)
      · obtain ⟨c, hc, hname, hd⟩ := mem_numColsOf.mp hn
        exact ⟨c, hc, hname, Or.inl hd⟩
      · obtain ⟨c, hc, hname, hd⟩ := mem_catColsOf.mp hn
        exact ⟨c, hc, hname, Or.inr hd⟩
    · rintro ⟨c, hc, hname, hd | hd⟩
      · exact Or.inl (mem_numColsOf.mpr ⟨c, hc, hname, hd⟩)
      · exact Or.inr (mem_catColsOf.mpr ⟨c, hc, hname, hd⟩)

/-- Witness for the amended C2 on a concrete table containing a boolean
column. -/
theorem classifier_amended_witness :
    (numColsOf dfWithBool).Disjoint (catColsOf dfWithBool)
    ∧ (numColsOf dfWithBool).Sublist dfWithBool.colNames
    ∧ (catColsOf dfWithBool).Sublist dfWithBool.colNames
    ∧ ∀ n, (n ∈ numColsOf dfWithBool ∨ n ∈ catColsOf dfWithBool)
        ↔ ∃ c ∈ dfWithBool.cols, c.name = n
            ∧ (c.dtype = Dtype.numeric ∨ c.dtype = Dtype.object) :=
  classifier_amended dfWithBool (by decide)

/-! ## Claim C3 -/

/-- Claim C3: with the classifier lists computed from the table in view,
the bivariate branch maps the four dtype cases as the code does: numeric
and numeric give a scatter chart and surface the correlation of the chosen
pair as a side value; numeric with categorical (in either order) give a
boxplot whose x-axis is the categorical column and whose y-axis is the
numeric one (the numeric column grouped by the categorical one); and
categorical with categorical give a count chart grouped (hued) by the
second column. -/
theorem bivariate_cases (df : DataFrame) (cx cy : Col)
    (hnd : df.colNames.Nodup) (hx : cx ∈ df.cols) (hy : cy ∈ df.cols) :
    (cx.dtype = Dtype.numeric → cy.dtype = Dtype.numeric →
      bivariateBranch (numColsOf df) (catColsOf df) cx.name cy.name
        = ⟨.scatter cx.name cy.name, some (cx.name, cy.name)⟩)
    ∧ (cx.dtype = Dtype.numeric → cy.dtype = Dtype.object →
      bivariateBranch (numColsOf df) (catColsOf df) cx.name cy.name
        = ⟨.boxplot cy.name cx.name, none⟩)
    ∧ (cx.dtype = Dtype.object → cy.dtype = Dtype.numeric →
      bivariateBranch (numColsOf df) (catColsOf df) cx.name cy.name
        = ⟨.boxplot cx.name cy.name, none⟩)
    ∧ (cx.dtype = Dtype.object → cy.dtype = Dtype.object →
      bivariateBranch (numColsOf df) (catColsOf df) cx.name cy.name
        = ⟨.countplotHue cx.name cy.name, none⟩) := by
  have hxn := name_mem_numColsOf hnd hx
  have hxc := name_mem_catColsOf hnd hx
  have hyn := name_mem_numColsOf hnd hy
  have hyc2 := name_mem_catColsOf hnd hy
  refine ⟨?_, ?_, ?_, ?_⟩
  · intro h1 h2
    unfold bivariateBranch
    rw [if_pos ⟨hxn.mpr h1, hyn.mpr h2⟩]
  · intro h1 h2
    unfold bivariateBranch
    rw [if_neg (fun hcon => by
        have := hyn.mp hcon.2
        rw [h2] at this
        cases this),
      if_pos ⟨hxn.mpr h1, hyc2.mpr h2⟩]
  · intro h1 h2
    unfold bivariateBranch
    rw [if_neg (fun hcon => by
        have := hxn.mp hcon.1
        rw [h1] at this
        cases this),
      if_neg (fun hcon => by
        have := hxn.mp hcon.1
        rw [h1] at this
        cases this),
      if_pos ⟨hxc.mpr h1, hyn.mpr h2⟩]
  · intro h1 h2
    unfold bivariateBranch
    rw [if_neg (fun hcon => by
        have := hxn.mp hcon.1
        rw [h1] at this
        cases this),
      if_neg (fun hcon => by
        have := hxn.mp hcon.1
        rw [h1] at this
        cases this),
      if_neg (fun hcon => by
        have := hyn.mp hcon.2
        rw [h2] at this
        cases this)]

/-- Witness for C3 at a concrete table: choosing the numeric `Price` column
against the categorical `Fuel_Type` column yields the boxplot with the
categorical column on the x-axis and no correlation side value. -/
theorem bivariate_cases_witness :
    bivariateBranch (numColsOf cleanDF) (catColsOf cleanDF)
        "Price" "Fuel_Type" = ⟨.boxplot "Fuel_Type" "Price", none⟩ :=
  (bivariate_cases cleanDF
    ⟨"Price", .numeric, [.num 5, .num 7, .num 3]⟩
    ⟨"Fuel_Type", .object, [.str "Petrol", .str "Diesel", .str "Petrol"]⟩
    (by decide) (by decide) (by decide)).2.1 rfl rfl

/-! ## Claim C9 -/

/-- Claim C9: the multivariate grouped-bar chart descriptor is produced if
and only if both `Fuel_Type` and `Price` are present in the subset in view;
when either is missing the branch produces the missing-columns warning and
no chart, and it never raises (the branch is a total function into chart or
warning). -/
theorem groupedBar_iff (df : DataFrame) :
    ((∃ hue, groupedBarBranch df = .chart "Fuel_Type" "Price" hue)
      ↔ ("Fuel_Type" ∈ df.colNames ∧ "Price" ∈ df.colNames))
    ∧ (¬("Fuel_Type" ∈ df.colNames ∧ "Price" ∈ df.colNames) →
      groupedBarBranch df = .warning "Required columns missing") := by
  unfold groupedBarBranch
  by_cases h : "Fuel_Type" ∈ df.colNames ∧ "Price" ∈ df.colNames
  · rw [if_pos h]
    exact ⟨⟨fun _ => h, fun _ => ⟨_, rfl⟩⟩, fun hn => absurd h hn⟩
  · rw [if_neg h]
    refine ⟨⟨?_, fun hc => absurd hc h⟩, fun _ => rfl⟩
    rintro ⟨hue, heq⟩
    cases heq

/-- Witness for C9: on a table lacking `Price` the branch produces the
warning. -/
theorem groupedBar_iff_witness :
    groupedBarBranch dfNoPrice = .warning "Required columns missing" :=
  (groupedBar_iff dfNoPrice).2 (by decide)

/-! ## Claim C10 -/

/-- Claim C10: a column whose dtype is neither numeric nor object (boolean
or datetime) lands in neither classifier list; the univariate branch sends
it to the numeric-chart arm (the histogram/KDE/boxplot toggle) for every
toggle position; and the bivariate branch sends any pair involving it to
the grouped-frequency (countplot-with-hue) arm, whatever the partner
column is. -/
theorem otherDtype_routing (df : DataFrame) (c : Col)
    (hnd : df.colNames.Nodup) (hc : c ∈ df.cols)
    (hdt1 : c.dtype ≠ Dtype.numeric) (hdt2 : c.dtype ≠ Dtype.object) :
    (c.name ∉ numColsOf df ∧ c.name ∉ catColsOf df)
    ∧ (∀ d, univariateBranch (catColsOf df) c.name d = numericUniChart d c.name)
    ∧ (∀ x : String,
        bivariateBranch (numColsOf df) (catColsOf df) x c.name
          = ⟨.countplotHue x c.name, none⟩
        ∧ bivariateBranch (numColsOf df) (catColsOf df) c.name x
          = ⟨.countplotHue c.name x, none⟩) := by
  have hnum : c.name ∉ numColsOf df :=
    fun h => hdt1 ((name_mem_numColsOf hnd hc).mp h)
  have hcat : c.name ∉ catColsOf df :=
    fun h => hdt2 ((name_mem_catColsOf hnd hc).mp h)
  refine ⟨⟨hnum, hcat⟩, ?_, ?_⟩
  · intro d
    unfold univariateBranch
    rw [if_neg hcat]
  · intro x
    constructor
    · unfold bivariateBranch
      rw [if_neg (fun hcon => hnum hcon.2),
        if_neg (fun hcon => hcat hcon.2),
        if_neg (fun hcon => hnum hcon.2)]
    · unfold bivariateBranch
      rw [if_neg (fun hcon => hnum hcon.1),
        if_neg (fun hcon => hnum hcon.1),
        if_neg (fun hcon => hcat hcon.1)]

/-- Witness for C10 at a concrete table: the boolean `Sold` column is
routed to the numeric univariate arm and to the grouped-frequency
bivariate arm against the numeric `Year` partner. -/
theorem otherDtype_routing_witness :
    ("Sold" ∉ numColsOf dfWithBool ∧ "Sold" ∉ catColsOf dfWithBool)
    ∧ univariateBranch (catColsOf dfWithBool) "Sold" .histogram
        = .histKde "Sold"
    ∧ bivariateBranch (numColsOf dfWithBool) (catColsOf dfWithBool)
        "Year" "Sold" = ⟨.countplotHue "Year" "Sold", none⟩ := by
  obtain ⟨h1, h2, h3⟩ := otherDtype_routing dfWithBool
    ⟨"Sold", .boolean, [.str "True"]⟩
    (by decide) (by decide) (by decide) (by decide)
  exact ⟨h1, h2 .histogram, (h3 "Year").1⟩

/-! ## String order lemmas (for the sorted pandas mode) -/

theorem lexLeChars_refl : ∀ as : List Char, lexLeChars as as = true
  | [] => rfl
  | a :: as => by
    simp [lexLeChars, lexLeChars_refl as]

theorem lexLeChars_total : ∀ as bs : List Char,
    lexLeChars as bs = true ∨ lexLeChars bs as = true
  | [], _ => Or.inl rfl
  | _ :: _, [] => Or.inr rfl
  | a :: as, b :: bs => by
    rcases Nat.lt_trichotomy a.toNat b.toNat with h | h | h
    · exact Or.inl (by simp [lexLeChars, h])
    · rcases lexLeChars_total as bs with h2 | h2
      · exact Or.inl (by simp [lexLeChars, h, h2])
      · exact Or.inr (by simp [lexLeChars, h, h2])
    · exact Or.inr (by simp [lexLeChars, h])

theorem lexLeChars_trans : ∀ as bs cs : List Char,
    lexLeChars as bs = true → lexLeChars bs cs = true →
    lexLeChars as cs = true
  | [], _, _, _, _ => rfl
  | _ :: _, [], _, h1, _ => by cases h1
  | _ :: _, _ :: _, [], _, h2 => by cases h2
  | a :: as, b :: bs, c :: cs, h1, h2 => by
    rcases Nat.lt_trichotomy a.toNat b.toNat with hab | hab | hab
    · rcases Nat.lt_trichotomy b.toNat c.toNat with hbc | hbc | hbc
      · simp [lexLeChars, lt_trans hab hbc]
      · simp [lexLeChars, hbc ▸ hab]
      · exfalso
        simp [lexLeChars, Nat.lt_asymm hbc, hbc] at h2
    · rcases Nat.lt_trichotomy b.toNat c.toNat with hbc | hbc | hbc
      · simp [lexLeChars, hab ▸ hbc]
      · have h1b : lexLeChars as bs = true := by
          simpa [lexLeChars, hab] using h1
        have h2b : lexLeChars bs cs = true := by
          simpa [lexLeChars, hbc] using h2
        simp [lexLeChars, hab.trans hbc,
          lexLeChars_trans as bs cs h1b h2b]
      · exfalso
        simp [lexLeChars, Nat.lt_asymm hbc, hbc] at h2
    · exfalso
      simp [lexLeChars, Nat.lt_asymm hab, hab] at h1

instance : IsTotal String (fun a b => pyStrLe a b = true) :=
  ⟨fun a b => lexLeChars_total a.data b.data⟩

instance : IsTrans String (fun a b => pyStrLe a b = true) :=
  ⟨fun a b c => lexLeChars_trans a.data b.data c.data⟩

theorem pyStrLe_refl (a : String) : pyStrLe a a = true :=
  lexLeChars_refl a.data

/-! ## Count and maximal-count lemmas -/

theorem foldr_max_mem : ∀ l : List Nat, l ≠ [] → l.foldr max 0 ∈ l
  | [a], _ => by simp
  | a :: b :: t, _ => by
    have IH := foldr_max_mem (b :: t) (by simp)
    have hfold : (a :: b :: t).foldr max 0 = max a ((b :: t).foldr max 0) := rfl
    rw [hfold]
    rcases max_choice a ((b :: t).foldr max 0) with h | h <;> rw [h]
    · exact List.mem_cons_self a _
    · exact List.mem_cons_of_mem a IH

theorem foldr_max_ge : ∀ (l : List Nat) (x : Nat), x ∈ l → x ≤ l.foldr max 0
  | a :: t, x, h => by
    simp only [List.foldr_cons]
    cases h with
    | head => exact le_max_left _ _
    | tail _ h2 => exact le_trans (foldr_max_ge t x h2) (le_max_right _ _)

theorem exists_count_eq_maxCount {vs : List String} (h : vs ≠ []) :
    ∃ v ∈ vs.dedup, vs.count v = maxCount vs := by
  have hne : vs.dedup ≠ [] := fun hnil => h ((List.dedup_eq_nil vs).mp hnil)
  have hne2 : vs.dedup.map (fun v => vs.count v) ≠ [] := by
    simpa using hne
  have hmem := foldr_max_mem _ hne2
  rw [List.mem_map] at hmem
  obtain ⟨v, hv, hcount⟩ := hmem
  exact ⟨v, hv, hcount⟩

theorem count_le_maxCount {vs : List String} {v : String} (h : v ∈ vs) :
    vs.count v ≤ maxCount vs := by
  apply foldr_max_ge
  rw [List.mem_map]
  exact ⟨v, List.mem_dedup.mpr h, rfl⟩

/-! ## Claim C4 -/

/-- Claim C4 counterexample: on the two-way tie `["B", "A"]` the code
(pandas `mode()[0]`, which sorts the tied values ascending) returns `"A"`,
while the claimed first-occurrence tie-break would return `"B"`. -/
theorem seriesMode_counterexample :
    seriesMode ["B", "A"] = some "A"
    ∧ specModeFirstOcc ["B", "A"] = some "B"
    ∧ seriesMode ["B", "A"] ≠ specModeFirstOcc ["B", "A"] := by decide

/-- Claim C4 (amended): on a non-empty column the most-frequent-value
operation returns a value of maximal occurrence count; when several values
tie for the maximal count it returns the smallest tied value in code-point
order (pandas sorts the tied values ascending and takes the first), not the
one occurring first in table order. -/
theorem seriesMode_spec (vs : List String) (h : vs ≠ []) :
    ∃ m, seriesMode vs = some m ∧ m ∈ vs
      ∧ (∀ v ∈ vs, vs.count v ≤ vs.count m)
      ∧ (∀ v ∈ vs, vs.count v = vs.count m → pyStrLe m v = true) := by
  have hperm := List.perm_insertionSort (fun a b => pyStrLe a b = true)
    (vs.dedup.filter (fun v => decide (vs.count v = maxCount vs)))
  have hsort := List.sorted_insertionSort (fun a b => pyStrLe a b = true)
    (vs.dedup.filter (fun v => decide (vs.count v = maxCount vs)))
  cases hms : List.insertionSort (fun a b => pyStrLe a b = true)
      (vs.dedup.filter (fun v => decide (vs.count v = maxCount vs))) with
  | nil =>
    exfalso
    rw [hms] at hperm
    obtain ⟨v, hv, hc⟩ := exists_count_eq_maxCount h
    have hvt : v ∈ vs.dedup.filter (fun v => decide (vs.count v = maxCount vs)) :=
      List.mem_filter.mpr ⟨hv, by simpa using hc⟩
    have hnil := hperm.symm.subset hvt
    cases hnil
  | cons m rest =>
    rw [hms] at hperm hsort
    have hmt : m ∈ vs.dedup.filter (fun v => decide (vs.count v = maxCount vs)) :=
      hperm.subset (List.mem_cons_self m rest)
    obtain ⟨hmd, hmc⟩ := List.mem_filter.mp hmt
    have hmc2 : vs.count m = maxCount vs := by simpa using hmc
    refine ⟨m, ?_, List.mem_dedup.mp hmd, ?_, ?_⟩
    · unfold seriesMode
      rw [hms]
      rfl
    · intro v hv
      rw [hmc2]
      exact count_le_maxCount hv
    · intro v hv hveq
      have hvt : v ∈ vs.dedup.filter
          (fun v => decide (vs.count v = maxCount vs)) :=
        List.mem_filter.mpr ⟨List.mem_dedup.mpr hv, by
          simpa using hveq.trans hmc2⟩
      rw [← hperm.mem_iff] at hvt
      cases hvt with
      | head => exact pyStrLe_refl m
      | tail _ hvrest =>
        exact (List.sorted_cons.mp hsort).1 v hvrest

/-- Witness for the amended C4 on a concrete fuel column. -/
theorem seriesMode_spec_witness :
    ∃ m, seriesMode ["Petrol", "Diesel", "Petrol"] = some m
      ∧ m ∈ ["Petrol", "Diesel", "Petrol"]
      ∧ (∀ v ∈ ["Petrol", "Diesel", "Petrol"],
          ["Petrol", "Diesel", "Petrol"].count v
            ≤ ["Petrol", "Diesel", "Petrol"].count m)
      ∧ (∀ v ∈ ["Petrol", "Diesel", "Petrol"],
          ["Petrol", "Diesel", "Petrol"].count v
              = ["Petrol", "Diesel", "Petrol"].count m →
          pyStrLe m v = true) :=
  seriesMode_spec ["Petrol", "Diesel", "Petrol"] (by decide)

/-! ## Claim C5 -/

instance : IsTotal (String × ℚ) (fun a b => a.2 ≤ b.2) :=
  ⟨fun a b => le_total a.2 b.2⟩

instance : IsTrans (String × ℚ) (fun a b => a.2 ≤ b.2) :=
  ⟨fun _ _ _ h1 h2 => le_trans h1 h2⟩

/-- Claim C5 counterexample: `sort_values(ascending=False)` reverses a
stable ascending sort.  First input: with the correlation series
`Price ↦ 1, A ↦ 0, B ↦ 0` the code reports `B` — the LAST of the tied
columns in column order, not the first (`A`) as claimed.  Second input:
with `Price ↦ 1, A ↦ 1` (a column perfectly correlated with `Price`,
listed after it) the code reports `Price` itself, so the reference column
is not excluded from candidacy. -/
theorem strongestWithPrice_counterexample :
    strongestWithPrice [("Price", 1), ("A", 0), ("B", 0)] = some "B"
    ∧ strongestWithPrice [("Price", 1), ("A", 1)] = some "Price" := by decide

/-- Claim C5 (amended): provided the reference column `Price` (correlation
`1` with itself) is a STRICT maximum of the series — no other column
correlates with it at exactly `1` — the reported column is distinct from
`Price` and attains the maximal correlation among the non-reference
columns.  (Among tied non-reference columns the code follows pandas'
descending sort, which reverses a stable ascending sort and therefore
favours the last tied column in column order, and when another column ties
with `Price` at `1` the reference column itself can be reported.) -/
theorem strongestWithPrice_spec (series : List (String × ℚ))
    (hnd : (series.map Prod.fst).Nodup)
    (hmem : ("Price", (1 : ℚ)) ∈ series)
    (hlt : ∀ p ∈ series, p.1 ≠ "Price" → p.2 < 1)
    (hlen : 2 ≤ series.length) :
    ∃ c v, strongestWithPrice series = some c ∧ c ≠ "Price"
      ∧ (c, v) ∈ series
      ∧ ∀ p ∈ series, p.1 ≠ "Price" → p.2 ≤ v := by
  have hperm : (sortValuesDescending series).Perm series :=
    (List.reverse_perm _).trans
      (List.perm_insertionSort (fun a b : String × ℚ => a.2 ≤ b.2) series)
  have hsort : (sortValuesDescending series).Pairwise
      (fun a b : String × ℚ => b.2 ≤ a.2) := by
    unfold sortValuesDescending
    rw [List.pairwise_reverse]
    exact List.sorted_insertionSort (fun a b : String × ℚ => a.2 ≤ b.2) series
  have hlen2 : 2 ≤ (sortValuesDescending series).length := by
    rw [hperm.length_eq]
    exact hlen
  have hRne : sortValuesDescending series ≠ [] := by
    intro hnil
    rw [hnil] at hlen2
    simp at hlen2
  obtain ⟨r0, t0, hR0⟩ := List.exists_cons_of_ne_nil hRne
  have ht0 : t0 ≠ [] := by
    intro hnil
    rw [hR0, hnil] at hlen2
    simp at hlen2
  obtain ⟨r1, rest, hR1⟩ := List.exists_cons_of_ne_nil ht0
  have hR : sortValuesDescending series = r0 :: r1 :: rest := by
    rw [hR0, hR1]
  rw [hR] at hperm hsort
  have hpw0 := List.pairwise_cons.mp hsort
  have hpw1 := List.pairwise_cons.mp hpw0.2
  -- the head of the descending sort is the Price entry
  have hr0mem : r0 ∈ series := hperm.subset (List.mem_cons_self _ _)
  have hpriceR : ("Price", (1 : ℚ)) ∈ r0 :: r1 :: rest :=
    hperm.mem_iff.mpr hmem
  have hr0ge : (1 : ℚ) ≤ r0.2 := by
    cases hpriceR with
    | head => exact le_refl _
    | tail _ hp =>
      have := hpw0.1 _ hp
      simpa using this
  have hr0name : r0.1 = "Price" := by
    by_contra hne
    exact absurd (lt_of_le_of_lt hr0ge (hlt r0 hr0mem hne)) (lt_irrefl _)
  -- second entry: not Price, by distinctness of names
  have hnodupR : ((r0 :: r1 :: rest).map Prod.fst).Nodup :=
    (hperm.map Prod.fst).nodup_iff.mpr hnd
  have hr1name : r1.1 ≠ "Price" := by
    intro h1
    have : r0.1 ∉ (r1 :: rest).map Prod.fst :=
      (List.nodup_cons.mp hnodupR).1
    exact this (by
      rw [hr0name, ← h1]
      exact List.mem_cons_self _ _)
  refine ⟨r1.1, r1.2, ?_, hr1name, ?_, ?_⟩
  · unfold strongestWithPrice
    rw [hR]
    rfl
  · exact hperm.subset (List.mem_cons_of_mem _ (List.mem_cons_self _ _))
  · intro p hp hpname
    have hpR : p ∈ r0 :: r1 :: rest := hperm.mem_iff.mpr hp
    cases hpR with
    | head => exact absurd hr0name hpname
    | tail _ hp2 =>
      cases hp2 with
      | head => exact le_refl _
      | tail _ hp3 => exact hpw1.1 p hp3

/-- Witness for the amended C5: with `Price` strictly on top, the second
entry of the descending sort is a non-reference column of maximal
correlation. -/
theorem strongestWithPrice_spec_witness :
    ∃ c v, strongestWithPrice [("Price", 1), ("A", 0), ("B", -1)] = some c
      ∧ c ≠ "Price"
      ∧ (c, v) ∈ [("Price", (1 : ℚ)), ("A", 0), ("B", -1)]
      ∧ ∀ p ∈ [("Price", (1 : ℚ)), ("A", 0), ("B", -1)],
          p.1 ≠ "Price" → p.2 ≤ v :=
  strongestWithPrice_spec [("Price", 1), ("A", 0), ("B", -1)]
    (by decide) (by decide) (by decide) (by decide)

/-! ## idxmax lemmas -/

theorem numsOf_cons_num (q : ℚ) (t : List Value) :
    numsOf (Value.num q :: t) = q :: numsOf t := rfl

theorem numsOf_cons_str (s : String) (t : List Value) :
    numsOf (Value.str s :: t) = numsOf t := rfl

theorem numsOf_length : ∀ {vs : List Value},
    (∀ v ∈ vs, v.isNum = true) → (numsOf vs).length = vs.length
  | [], _ => rfl
  | v :: t, h => by
    cases v with
    | num q =>
      rw [numsOf_cons_num, List.length_cons, List.length_cons]
      exact congrArg Nat.succ
        (numsOf_length (fun w hw => h w (List.mem_cons_of_mem _ hw)))
    | str s =>
      exact absurd (h _ (List.mem_cons_self _ _)) (by simp [Value.isNum])

theorem idxmax_eq_none : ∀ {l : List ℚ}, idxmax l = none → l = []
  | [], _ => rfl
  | v :: rest, h => by
    unfold idxmax at h
    cases hr : idxmax rest <;> rw [hr] at h
    · cases h
    · rename_i j
      have h2 : (if rest.getD j 0 ≤ v then some 0 else some (j + 1))
          = (none : Option Nat) := h
      by_cases hle : rest.getD j 0 ≤ v
      · rw [if_pos hle] at h2
        cases h2
      · rw [if_neg hle] at h2
        cases h2

theorem idxmax_spec : ∀ (l : List ℚ) (j : Nat), idxmax l = some j →
    j < l.length ∧ (∀ k < l.length, l.getD k 0 ≤ l.getD j 0)
    ∧ (∀ k < j, l.getD k 0 < l.getD j 0)
  | [], j, h => by cases h
  | v :: rest, j, h => by
    unfold idxmax at h
    cases hr : idxmax rest <;> rw [hr] at h
    · cases h
      have hrest : rest = [] := idxmax_eq_none hr
      subst hrest
      refine ⟨Nat.zero_lt_one, ?_, ?_⟩
      · intro k hk
        cases k with
        | zero => exact le_refl _
        | succ k2 => exact absurd hk (by simp)
      · intro k hk
        exact absurd hk (Nat.not_lt_zero k)
    · rename_i j2
      obtain ⟨IH1, IH2, IH3⟩ := idxmax_spec rest j2 hr
      have h2 : (if rest.getD j2 0 ≤ v then some 0 else some (j2 + 1))
          = some j := h
      by_cases hle : rest.getD j2 0 ≤ v
      · rw [if_pos hle] at h2
        cases h2
        refine ⟨Nat.succ_pos _, ?_, ?_⟩
        · intro k hk
          cases k with
          | zero => exact le_refl _
          | succ k2 =>
            rw [List.getD_cons_succ, List.getD_cons_zero]
            exact le_trans (IH2 k2 (Nat.lt_of_succ_lt_succ hk)) hle
        · intro k hk
          exact absurd hk (Nat.not_lt_zero k)
      · rw [if_neg hle] at h2
        cases h2
        have hlt : v < rest.getD j2 0 := lt_of_not_le hle
        refine ⟨Nat.succ_lt_succ IH1, ?_, ?_⟩
        · intro k hk
          cases k with
          | zero =>
            rw [List.getD_cons_zero, List.getD_cons_succ]
            exact le_of_lt hlt
          | succ k2 =>
            rw [List.getD_cons_succ, List.getD_cons_succ]
            exact IH2 k2 (Nat.lt_of_succ_lt_succ hk)
        · intro k hk
          cases k with
          | zero =>
            rw [List.getD_cons_zero, List.getD_cons_succ]
            exact hlt
          | succ k2 =>
            rw [List.getD_cons_succ, List.getD_cons_succ]
            exact IH3 k2 (Nat.lt_of_succ_lt_succ hk)

theorem get?_isSome_of_lt :
    ∀ (l : List Value) (i : Nat), i < l.length → ∃ v, l.get? i = some v
  | a :: _, 0, _ => ⟨a, rfl⟩
  | _ :: t, i + 1, h => get?_isSome_of_lt t i (Nat.lt_of_succ_lt_succ h)

theorem highestPriceCompany_eq (df : DataFrame) (pc cc : Col)
    (hpc : df.getCol "Price" = .ok pc)
    (hcc : df.getCol "Company_Name" = .ok cc) :
    highestPriceCompany df
      = match idxmax (numsOf pc.values) with
        | none => .error "ValueError: attempt to get argmax of an empty sequence"
        | some i =>
          match cc.values.get? i with
          | some v => .ok v
          | none => .error "KeyError: label not found" := by
  unfold highestPriceCompany
  rw [hpc, hcc]
  rfl

/-! ## Claim C6 -/

/-- Claim C6: on a table with a non-empty numeric `Price` column, the
conclusion-page highest-price lookup returns the `Company_Name` cell of a
row index `i` whose price is maximal, and every strictly earlier row has a
strictly smaller price — the first row attaining the maximum, in table
order, as pandas `idxmax` documents. -/
theorem highestPrice_spec (df : DataFrame) (pc cc : Col)
    (hwf : df.Wf)
    (hpc : df.getCol "Price" = .ok pc)
    (hcc : df.getCol "Company_Name" = .ok cc)
    (hnum : ∀ v ∈ pc.values, v.isNum = true)
    (hne : pc.values ≠ []) :
    ∃ i v, cc.values.get? i = some v
      ∧ highestPriceCompany df = .ok v
      ∧ i < df.nrows
      ∧ (∀ k < (numsOf pc.values).length,
          (numsOf pc.values).getD k 0 ≤ (numsOf pc.values).getD i 0)
      ∧ (∀ k < i, (numsOf pc.values).getD k 0 < (numsOf pc.values).getD i 0)
    := by
  have hlen : (numsOf pc.values).length = pc.values.length := numsOf_length hnum
  have hpcn : pc.values.length = df.nrows := hwf pc (getCol_ok hpc).1
  have hccn : cc.values.length = df.nrows := hwf cc (getCol_ok hcc).1
  cases hix : idxmax (numsOf pc.values) with
  | none =>
    exfalso
    apply hne
    have h0 : numsOf pc.values = [] := idxmax_eq_none hix
    have : pc.values.length = 0 := by rw [← hlen, h0]; rfl
    exact List.length_eq_zero.mp this
  | some i =>
    obtain ⟨hi1, hi2, hi3⟩ := idxmax_spec (numsOf pc.values) i hix
    have hilt : i < df.nrows := by
      rw [← hpcn, ← hlen]
      exact hi1
    obtain ⟨v, hv⟩ := get?_isSome_of_lt cc.values i (by rw [hccn]; exact hilt)
    refine ⟨i, v, hv, ?_, hilt, hi2, hi3⟩
    rw [highestPriceCompany_eq df pc cc hpc hcc, hix]
    show (match cc.values.get? i with
      | some w => Except.ok w
      | none => Except.error "KeyError: label not found") = Except.ok v
    rw [hv]

/-- Witness for C6 at a concrete table: the maximal price 7 sits in row 1,
whose company is Hyundai. -/
theorem highestPrice_spec_witness :
    ∃ i v, ([Value.str "Maruti", Value.str "Hyundai", Value.str "Maruti"]
        : List Value).get? i = some v
      ∧ highestPriceCompany cleanDF = .ok v
      ∧ i < cleanDF.nrows
      ∧ (∀ k < (numsOf [Value.num 5, Value.num 7, Value.num 3]).length,
          (numsOf [Value.num 5, Value.num 7, Value.num 3]).getD k 0
            ≤ (numsOf [Value.num 5, Value.num 7, Value.num 3]).getD i 0)
      ∧ (∀ k < i,
          (numsOf [Value.num 5, Value.num 7, Value.num 3]).getD k 0
            < (numsOf [Value.num 5, Value.num 7, Value.num 3]).getD i 0) :=
  highestPrice_spec cleanDF
    ⟨"Price", .numeric, [.num 5, .num 7, .num 3]⟩
    ⟨"Company_Name", .object, [.str "Maruti", .str "Hyundai", .str "Maruti"]⟩
    (by decide) rfl rfl (by decide) (by decide)

/-! ## Claim C7 -/

/-- Claim C7: when the Filter Selection allows no company (an empty allowed
set) the filtered subset has zero rows, and every dependent metric of the
Analysis page degrades gracefully: the row count reports `0` and the mean
Price and mean Power both report the undefined value (`none`, the NaN a
pandas mean yields on an empty column, which `round` passes through) —
no exception is raised and no spurious number is produced. -/
theorem emptyFilter_metrics (df : DataFrame) (cc yc : Col) (lo hi : ℚ)
    (hcc : df.getCol "Company_Name" = .ok cc)
    (hyc : df.getCol "Year" = .ok yc)
    (hp : "Price" ∈ df.colNames)
    (hw : "Power_value" ∈ df.colNames) :
    ∃ out, filterEngine df [] lo hi = .ok out
      ∧ out.nrows = 0
      ∧ analysisMetrics out = .ok (0, none, none) := by
  obtain ⟨pc, hpc, hpcmem, hpcname⟩ := getCol_ok_of_mem hp
  obtain ⟨wc, hwc, hwcmem, hwcname⟩ := getCol_ok_of_mem hw
  refine ⟨df.filterMask (List.zipWith (fun a b => a && b)
    (cc.values.map (valueIsIn []))
    (yc.values.map (valueBetween lo hi))), ?_, ?_, ?_⟩
  · unfold filterEngine
    rw [hcc, hyc]
    rfl
  · have hne : df.cols ≠ [] := by
      intro hnil
      rw [DataFrame.colNames, hnil] at hp
      cases hp
    obtain ⟨c0, t0, hc0⟩ := List.exists_cons_of_ne_nil hne
    unfold DataFrame.filterMask DataFrame.nrows
    rw [hc0]
    rw [List.map_cons]
    rw [filterMaskCol_eq_selectRows, selectRows_empty_allowed]
    rfl
  · have hgp : (df.filterMask (List.zipWith (fun a b => a && b)
        (cc.values.map (valueIsIn []))
        (yc.values.map (valueBetween lo hi)))).getCol "Price"
        = .ok ⟨pc.name, pc.dtype, []⟩ := by
      rw [getCol_filterMask, hpc]
      have hcol : pc.filterMask (List.zipWith (fun a b => a && b)
          (cc.values.map (valueIsIn []))
          (yc.values.map (valueBetween lo hi)))
          = ⟨pc.name, pc.dtype, []⟩ := by
        rw [filterMaskCol_eq_selectRows, selectRows_empty_allowed]
      exact congrArg Except.ok hcol
    have hgw : (df.filterMask (List.zipWith (fun a b => a && b)
        (cc.values.map (valueIsIn []))
        (yc.values.map (valueBetween lo hi)))).getCol "Power_value"
        = .ok ⟨wc.name, wc.dtype, []⟩ := by
      rw [getCol_filterMask, hwc]
      have hcol : wc.filterMask (List.zipWith (fun a b => a && b)
          (cc.values.map (valueIsIn []))
          (yc.values.map (valueBetween lo hi)))
          = ⟨wc.name, wc.dtype, []⟩ := by
        rw [filterMaskCol_eq_selectRows, selectRows_empty_allowed]
      exact congrArg Except.ok hcol
    have hnr : (df.filterMask (List.zipWith (fun a b => a && b)
        (cc.values.map (valueIsIn []))
        (yc.values.map (valueBetween lo hi)))).nrows = 0 := by
      have hne : df.cols ≠ [] := by
        intro hnil
        rw [DataFrame.colNames, hnil] at hp
        cases hp
      obtain ⟨c0, t0, hc0⟩ := List.exists_cons_of_ne_nil hne
      unfold DataFrame.filterMask DataFrame.nrows
      rw [hc0, List.map_cons, filterMaskCol_eq_selectRows,
        selectRows_empty_allowed]
      rfl
    unfold analysisMetrics
    rw [hgp, hgw]
    show Except.ok ((df.filterMask (List.zipWith (fun a b => a && b)
        (cc.values.map (valueIsIn []))
        (yc.values.map (valueBetween lo hi)))).nrows,
      (seriesMean (numsOf ([] : List Value))).map round2,
      (seriesMean (numsOf ([] : List Value))).map round2)
      = Except.ok (0, none, none)
    rw [hnr]
    rfl

/-- Witness for C7 at a concrete table: deselecting every company gives a
zero-row subset whose metrics are `0`, undefined and undefined. -/
theorem emptyFilter_metrics_witness :
    ∃ out, filterEngine cleanDF [] 2015 2019 = .ok out
      ∧ out.nrows = 0
      ∧ analysisMetrics out = .ok (0, none, none) :=
  emptyFilter_metrics cleanDF
    ⟨"Company_Name", .object, [.str "Maruti", .str "Hyundai", .str "Maruti"]⟩
    ⟨"Year", .numeric, [.num 2017, .num 2019, .num 2015]⟩
    2015 2019 rfl rfl (by decide) (by decide)

/-! ## Claim C8 -/

/-- Claim C8 counterexample: on a table lacking the `Price` column the
Introduction-page metrics computation does not catch the missing-column
condition and surface a warning — the `KeyError` propagates out (modelled
as `Except.error`), aborting the whole render, so the metrics after the
faulty one are never produced and the rest of the page is not functional. -/
theorem columnNotFound_counterexample :
    introductionMetrics dfNoPrice = .error "KeyError: Price" := rfl

/-- Claim C8 (amended): a referenced column absent from the current table is
NOT caught at the point of use: both the Introduction metrics block and the
Conclusion metrics block propagate the `KeyError` unchanged (aborting their
page render) whenever `Price` is missing; no user-visible warning replaces
the affected output.  (Only the location-map check and the grouped-bar
check test for column presence before use.) -/
theorem columnNotFound_amended (df : DataFrame)
    (h : "Price" ∉ df.colNames) :
    introductionMetrics df = .error "KeyError: Price"
    ∧ conclusionMetrics df = .error "KeyError: Price" := by
  have hg := getCol_error h
  constructor
  · unfold introductionMetrics
    rw [hg]
    rfl
  · unfold conclusionMetrics highestPriceCompany
    rw [hg]
    rfl

/-- Witness for the amended C8 at a concrete table lacking `Price`. -/
theorem columnNotFound_amended_witness :
    introductionMetrics dfNoPrice = .error "KeyError: Price"
    ∧ conclusionMetrics dfNoPrice = .error "KeyError: Price" :=
  columnNotFound_amended dfNoPrice (by decide)
